import Mathlib

/-!
Verification development for the `network-shmetwork` diagnostic log analyzer
(`analyze.py`, `backhaul_inference.py`, `coverage_gaps.py`).

Shallow embedding conventions:
* Python numeric computations over CSV/JSON values are modelled over `Int`/`ℚ`
  (exact arithmetic standing in for Python ints and floats).
* A CSV cell that may be absent, empty, or unparsable is modelled by `Cell α`:
  `missing` covers an absent key and the empty string (both falsy in Python),
  `bad` a present, truthy value on which `int()`/`float()` would raise
  `ValueError`, and `val a` a value that parses to `a`.
* ISO-8601 timestamp strings are carried verbatim (`ts : String`, used for the
  lexicographic sorts); where the source calls `datetime.fromisoformat` the
  record additionally carries `tsEpoch : Option Int`, the parse result in epoch
  seconds, with `none` modelling a `ValueError` from an unparseable timestamp.
* An uncaught Python exception is modelled by an `Option`-valued function
  returning `none`.
* `dict` / `defaultdict(list)` values are association lists preserving
  insertion order, matching CPython's guaranteed dict iteration order.
  `set` iteration order is *not* deterministic across interpreter runs
  (string hashing is seeded); `list(set(...))` is therefore modelled by an
  explicit materialization function, constrained only to produce some
  permutation of the first-occurrence deduplication of its input.
* Python's stable `list.sort(key=...)` / `sorted(key=...)` is modelled by the
  stable `List.insertionSort` on the same key.
-/

/-- A CSV/JSON scalar cell: absent-or-empty (falsy), present but unparsable
(`int()`/`float()` raises), or parsed. -/
inductive Cell (α : Type) where
  | missing : Cell α
  | bad : Cell α
  | val : α → Cell α
deriving DecidableEq

/- ------------------------------------------------------------------ -/
/- coverage_gaps.py : signal thresholds and calculate_coverage_score   -/
/- ------------------------------------------------------------------ -/

def EXCELLENT_SIGNAL : Int := -50

def GOOD_SIGNAL : Int := -60

def FAIR_SIGNAL : Int := -70

def WEAK_SIGNAL : Int := -75

def DEAD_ZONE_THRESHOLD : Int := -80

/-- Minimum of a list of ints, Python `min` on a non-empty list (`0` is a dummy
for the empty case, which the source never reaches). -/
def listMin : List Int → Int
  | [] => 0
  | a :: as => as.foldl min a

/-- Maximum, Python `max` on a non-empty list. -/
def listMax : List Int → Int
  | [] => 0
  | a :: as => as.foldl max a

/-- `statistics.mean` over integer samples, exact. -/
def meanInt (l : List Int) : ℚ := (l.sum : ℚ) / (l.length : ℚ)

/-- CPython rounding to an integer: nearest, with exact halves going to the
even neighbour (banker's rounding). -/
def roundHalfEven (q : ℚ) : ℤ :=
  if q - ⌊q⌋ < 1/2 then ⌊q⌋
  else if 1/2 < q - ⌊q⌋ then ⌊q⌋ + 1
  else if ⌊q⌋ % 2 = 0 then ⌊q⌋ else ⌊q⌋ + 1

/-- Python `round(x, 1)`: round to the nearest tenth, halves to the even
tenth. -/
def roundTenth (q : ℚ) : ℚ := ((roundHalfEven (q * 10) : ℤ) : ℚ) / 10

/-- Band counter `excellent` (source line 79): `s >= EXCELLENT_SIGNAL`. -/
def cntExcellent (signals : List Int) : Nat :=
  signals.countP (fun s => decide (EXCELLENT_SIGNAL ≤ s))

/-- Band counter `good` (line 80): `GOOD_SIGNAL <= s < EXCELLENT_SIGNAL`. -/
def cntGood (signals : List Int) : Nat :=
  signals.countP (fun s => decide (GOOD_SIGNAL ≤ s ∧ s < EXCELLENT_SIGNAL))

/-- Band counter `fair` (line 81): `FAIR_SIGNAL <= s < GOOD_SIGNAL`. -/
def cntFair (signals : List Int) : Nat :=
  signals.countP (fun s => decide (FAIR_SIGNAL ≤ s ∧ s < GOOD_SIGNAL))

/-- Band counter `weak` (line 82): `WEAK_SIGNAL <= s < FAIR_SIGNAL`. -/
def cntWeak (signals : List Int) : Nat :=
  signals.countP (fun s => decide (WEAK_SIGNAL ≤ s ∧ s < FAIR_SIGNAL))

/-- Band counter `dead` (line 83): `s < WEAK_SIGNAL`. -/
def cntDead (signals : List Int) : Nat :=
  signals.countP (fun s => decide (s < WEAK_SIGNAL))

/-- The weighted score of lines 88-94. -/
def rawScore (signals : List Int) : ℚ :=
  (cntExcellent signals : ℚ) / (signals.length : ℚ) * 100 +
    (cntGood signals : ℚ) / (signals.length : ℚ) * 80 +
    (cntFair signals : ℚ) / (signals.length : ℚ) * 60 +
    (cntWeak signals : ℚ) / (signals.length : ℚ) * 30 +
    (cntDead signals : ℚ) / (signals.length : ℚ) * 0

/-- `dead_zone_pct` of line 97. -/
def deadZonePct (signals : List Int) : ℚ :=
  (cntDead signals : ℚ) / (signals.length : ℚ) * 100

/-- The conditional dead-zone penalty of lines 98-99. -/
def penalizedScore (signals : List Int) : ℚ :=
  if 0 < deadZonePct signals then rawScore signals - deadZonePct signals
  else rawScore signals

/-- The clamp `max(0, min(100, score))` of line 101. -/
def clampedScore (signals : List Int) : ℚ :=
  max 0 (min 100 (penalizedScore signals))

/-- The rating ladder of lines 104-113. -/
def ratingOf (s : ℚ) : String :=
  if 90 ≤ s then "Excellent"
  else if 75 ≤ s then "Good"
  else if 50 ≤ s then "Fair"
  else if 25 ≤ s then "Poor"
  else "Critical"

/-- Result dictionary of `calculate_coverage_score`. For the empty-input
sentinel the source omits the `avg_signal`/`min_signal` keys; the model fills
them with `0`. The five band counters form the `breakdown` sub-dict. -/
structure CoverageScore where
  score : ℚ
  rating : String
  avg_signal : ℚ
  min_signal : Int
  excellent : Nat
  good : Nat
  fair : Nat
  weak : Nat
  dead_zone : Nat
deriving DecidableEq

/-- `coverage_gaps.calculate_coverage_score` (lines 66-127): band counts,
weighted score, conditional dead-zone penalty, clamp to `[0,100]`, rating
thresholds, and `round(score, 1)` / `round(avg, 1)` on the returned fields. -/
def calculate_coverage_score (signals : List Int) : CoverageScore :=
  if signals.isEmpty then
    { score := 0, rating := "No Data", avg_signal := 0, min_signal := 0,
      excellent := 0, good := 0, fair := 0, weak := 0, dead_zone := 0 }
  else
    { score := roundTenth (clampedScore signals),
      rating := ratingOf (clampedScore signals),
      avg_signal := roundTenth (meanInt signals),
      min_signal := listMin signals,
      excellent := cntExcellent signals, good := cntGood signals,
      fair := cntFair signals, weak := cntWeak signals,
      dead_zone := cntDead signals }

/-- Spec-side formula (claim C1 wording): the band-weighted sum
`100·(%excellent) + 80·(%good) + 60·(%fair) + 30·(%weak) + 0·(%dead)`. -/
def claimWeightedSum (signals : List Int) : ℚ :=
  100 * ((signals.countP (fun s => decide (-50 ≤ s)) : ℚ) / (signals.length : ℚ)) +
    80 * ((signals.countP (fun s => decide (-60 ≤ s ∧ s < -50)) : ℚ) / (signals.length : ℚ)) +
    60 * ((signals.countP (fun s => decide (-70 ≤ s ∧ s < -60)) : ℚ) / (signals.length : ℚ)) +
    30 * ((signals.countP (fun s => decide (-75 ≤ s ∧ s < -70)) : ℚ) / (signals.length : ℚ)) +
    0 * ((signals.countP (fun s => decide (s < -75)) : ℚ) / (signals.length : ℚ))

/-- Spec-side score (claim C1 wording): weighted sum minus the dead-band
percentage, clamped to `[0,100]`. -/
def claimScore (signals : List Int) : ℚ :=
  max 0 (min 100
    (claimWeightedSum signals -
      100 * ((signals.countP (fun s => decide (s < -75)) : ℚ) / (signals.length : ℚ))))

/-- Spec-side rating bands (claim C1 wording). -/
def claimRating (s : ℚ) : String :=
  if 90 ≤ s then "Excellent"
  else if 75 ≤ s then "Good"
  else if 50 ≤ s then "Fair"
  else if 25 ≤ s then "Poor"
  else "Critical"

/- ------------------------------------------------------------------ -/
/- Python stable sort by key                                           -/
/- ------------------------------------------------------------------ -/

section StableSort

variable {α : Type} {K : Type} [LinearOrder K]

instance instDecKeyLE (k : α → K) : DecidableRel (fun a b => k a ≤ k b) :=
  fun a b => inferInstanceAs (Decidable (k a ≤ k b))

instance instTotalKeyLE (k : α → K) : IsTotal α (fun a b => k a ≤ k b) :=
  ⟨fun a b => le_total (k a) (k b)⟩

instance instTransKeyLE (k : α → K) : IsTrans α (fun a b => k a ≤ k b) :=
  ⟨fun _ _ _ hab hbc => le_trans hab hbc⟩

/-- Python's stable `list.sort(key=k)` / `sorted(key=k)`, modelled by the
stable insertion sort on the key. -/
def sortByKey (k : α → K) (l : List α) : List α :=
  List.insertionSort (fun a b => k a ≤ k b) l

end StableSort

/- ------------------------------------------------------------------ -/
/- analyze.py : host discovery, log readers, summary counters          -/
/- ------------------------------------------------------------------ -/

/-- One generic log record of a single stream. `host` is filled in by the
reader (`row["_host"] = h`), `ts` is `r.get("ts", "")` (empty when absent),
`payload` stands for the remaining stream-specific columns. -/
structure LogRec where
  host : String
  ts : String
  payload : String
deriving DecidableEq

/-- The reader's `row["_host"] = h` tagging. -/
def tagHost (h : String) (r : LogRec) : LogRec := { r with host := h }

/-- `analyze.read_csv_logs` (lines 38-55) for a fixed stream file: the rows
found for each host (an absent file contributes `[]`) are tagged with their
host, concatenated in host order, and stably sorted by the `ts` string. -/
def read_csv_logs (files : List (String × List LogRec)) : List LogRec :=
  sortByKey (fun r => r.ts) ((files.map (fun p => p.2.map (tagHost p.1))).join)

/-- `analyze.read_jsonl_logs` (lines 58-77): identical to the CSV reader
except that each physical line first passes `json.loads`; a line that fails
to decode (`none`) is skipped by the `try/except` and contributes nothing. -/
def read_jsonl_logs (files : List (String × List (Option LogRec))) : List LogRec :=
  read_csv_logs (files.map (fun p => (p.1, p.2.filterMap id)))

/-- A directory entry of the log root. -/
structure DirEntry where
  name : String
  isDir : Bool
deriving DecidableEq

/-- `find_all_hosts` as written in `analyze.py` and `backhaul_inference.py`
(lines 30-35 of each file): every directory is a host; `none` models a
non-existent log root. -/
def find_all_hosts_analyze : Option (List DirEntry) → List String
  | none => []
  | some entries => (entries.filter (fun d => d.isDir)).map (fun d => d.name)

/-- `find_all_hosts` as written in `coverage_gaps.py` (lines 37-44): the
reserved names `failures`, `snapshots`, `archive` are excluded. -/
def find_all_hosts_coverage : Option (List DirEntry) → List String
  | none => []
  | some entries =>
      (entries.filter (fun d => d.isDir &&
        !(d.name == "failures" || d.name == "snapshots" || d.name == "archive"))).map
        (fun d => d.name)

/-- Reading one stream over a discovered host list against per-host file
contents (`fs h` = rows of `LOG_DIR/h/<file>`, `[]` when the file is absent). -/
def read_csv_from (fs : String → List LogRec) (hosts : List String) : List LogRec :=
  read_csv_logs (hosts.map (fun h => (h, fs h)))

/-- One `net_probe.csv` row as consumed by `cmd_summary` (lines 92-104). -/
structure NetRow where
  host : String
  ts : String
  wan_loss_pct : Cell ℚ
  gw_loss_pct : Cell ℚ
  dns_ok : Option String
deriving DecidableEq

/-- Python `float(r.get(key, 0) or 0)`: an absent key or empty string gives
`0.0`; a present non-numeric string raises `ValueError` (`none`). -/
def lossVal : Cell ℚ → Option ℚ
  | Cell.missing => some 0
  | Cell.bad => none
  | Cell.val q => some q

/-- The three failure counters of `cmd_summary` (lines 96-98); `none` models
the uncaught `ValueError` aborting the whole command. -/
def netFailureCounts : List NetRow → Option (Nat × Nat × Nat)
  | [] => some (0, 0, 0)
  | r :: rs => do
      let w ← lossVal r.wan_loss_pct
      let g ← lossVal r.gw_loss_pct
      let rest ← netFailureCounts rs
      some (if w = 100 then rest.1 + 1 else rest.1,
            if g = 100 then rest.2.1 + 1 else rest.2.1,
            if r.dns_ok = some "0" then rest.2.2 + 1 else rest.2.2)

/-- The counters `cmd_summary` produces when no numeric cell is malformed. -/
def netFailureCountsOk (rows : List NetRow) : Nat × Nat × Nat :=
  (rows.countP (fun r => decide (lossVal r.wan_loss_pct = some 100)),
   rows.countP (fun r => decide (lossVal r.gw_loss_pct = some 100)),
   rows.countP (fun r => decide (r.dns_ok = some "0")))

/-- A well-formed `net_probe` row recording a total WAN outage. -/
def goodNetRow : NetRow :=
  { host := "pi-kitchen", ts := "2024-01-01T00:00:00", wan_loss_pct := Cell.val 100,
    gw_loss_pct := Cell.missing, dns_ok := some "1" }

/-- A `net_probe` row whose `wan_loss_pct` cell holds a non-numeric string. -/
def badNetRow : NetRow :=
  { host := "pi-attic", ts := "2024-01-01T00:05:00", wan_loss_pct := Cell.bad,
    gw_loss_pct := Cell.missing, dns_ok := none }

/-- A row living under a reserved directory name. -/
def strayRow : LogRec := { host := "", ts := "2024-01-01T00:00:00", payload := "r" }

/- ------------------------------------------------------------------ -/
/- backhaul_inference.py : readers, correlator, AP aggregation         -/
/- ------------------------------------------------------------------ -/

/-- A `wifi_probe.csv` row as used by the backhaul correlator. `tsEpoch` is
the `datetime.fromisoformat` parse of `ts` in epoch seconds (`none` when the
parse raises); `ap_name`/`bssid` are `none` when absent or empty (falsy). -/
structure WifiRec where
  host : String
  ts : String
  tsEpoch : Option Int
  signal_dbm : Cell Int
  ap_name : Option String
  bssid : Option String
deriving DecidableEq

/-- One decoded line of `iperf.jsonl`: the truthiness of `obj.get("ok")`,
whether the `"iperf"` key is present, `obj.get("mode")`, and the
`bits_per_second` numbers of `end.sum_received` / `end.sum_sent` with their
`.get(..., 0)` defaults already applied. -/
structure IperfRaw where
  ok : Bool
  hasIperf : Bool
  mode : Option String
  sum_received_bps : ℚ
  sum_sent_bps : ℚ
  ts : String
  tsEpoch : Option Int
deriving DecidableEq

/-- An iperf record as produced by `read_iperf_logs` (lines 49-69): host tag
plus the extracted `throughput_mbps` (0 for failed records or records with no
`iperf` payload; received for download mode, sent otherwise). -/
structure IperfRec where
  host : String
  ts : String
  tsEpoch : Option Int
  ok : Bool
  mode : Option String
  throughput_mbps : ℚ
deriving DecidableEq

/-- The per-line body of `read_iperf_logs` (lines 50-69). -/
def processIperfLine (h : String) (o : IperfRaw) : IperfRec :=
  { host := h, ts := o.ts, tsEpoch := o.tsEpoch, ok := o.ok, mode := o.mode,
    throughput_mbps :=
      if o.ok ∧ o.hasIperf then
        (if o.mode = some "download" then o.sum_received_bps else o.sum_sent_bps) / 1000000
      else 0 }

/-- `read_iperf_logs` (lines 38-74): decode each host's lines (undecodable
lines skipped), extract throughput, tag the host, sort by the `ts` string. -/
def read_iperf_logs (files : List (String × List (Option IperfRaw))) : List IperfRec :=
  sortByKey (fun r => r.ts)
    ((files.map (fun p => (p.2.filterMap id).map (processIperfLine p.1))).join)

/-- The wifi candidates of one iperf record with their absolute time gaps in
seconds: a wifi row with an unparseable timestamp is skipped by the
`except (ValueError, KeyError)` handler (lines 120-129). -/
def candGaps (t : Int) (ws : List WifiRec) : List (WifiRec × Nat) :=
  ws.filterMap (fun w => w.tsEpoch.map (fun wt => (w, (t - wt).natAbs)))

/-- The running-minimum loop of lines 117-129: strict `diff < min_diff`, so
the first-encountered minimum is kept. -/
def pickClosest : List (WifiRec × Nat) → Option (WifiRec × Nat) → Option (WifiRec × Nat)
  | [], acc => acc
  | c :: cs, none => pickClosest cs (some c)
  | c :: cs, some b => if c.2 < b.2 then pickClosest cs (some c) else pickClosest cs (some b)

/-- `closest_wifi` / `min_diff` after the scan of lines 117-129. -/
def closestWifi (t : Int) (ws : List WifiRec) : Option (WifiRec × Nat) :=
  pickClosest (candGaps t ws) none

/-- The per-record selection of `correlate_throughput_with_ap` (lines
108-132): skip failed or zero-throughput records, scan the same-host wifi
rows for the minimal `|Δt|`, and accept only strictly below the 300 s window
(`min_diff < 300`, line 132). An unparseable iperf timestamp makes every
candidate comparison raise and be skipped. -/
def selectPairing (wifis : List WifiRec) (ip : IperfRec) : Option (WifiRec × Nat) :=
  if ip.ok && decide (ip.throughput_mbps ≠ 0) then
    match ip.tsEpoch with
    | none => none
    | some t =>
        match closestWifi t (wifis.filter (fun w => w.host == ip.host)) with
        | none => none
        | some (w, d) => if d < 300 then some (w, d) else none
  else none

/-- `closest_wifi.get("ap_name") or closest_wifi.get("bssid") or "unknown"`
(line 133). -/
def apNameOf (w : WifiRec) : String :=
  match w.ap_name with
  | some a => a
  | none =>
    match w.bssid with
    | some b => b
    | none => "unknown"

/-- `int(signal) if signal else None` (line 141): outer `none` models the
uncaught `ValueError` on a present non-numeric signal. -/
def sigParse : Cell Int → Option (Option Int)
  | Cell.missing => some none
  | Cell.bad => none
  | Cell.val s => some (some s)

/-- One measurement dict appended at lines 136-142. -/
structure Meas where
  throughput_mbps : ℚ
  mode : String
  host : String
  ts : String
  signal_dbm : Option Int
deriving DecidableEq

/-- Builds the measurement dict of lines 136-142 (`mode` gets the
`"unknown"` default there). -/
def mkMeas (ip : IperfRec) (sig : Option Int) : Meas :=
  { throughput_mbps := ip.throughput_mbps, mode := ip.mode.getD "unknown",
    host := ip.host, ts := ip.ts, signal_dbm := sig }

/-- `defaultdict(list)` append: extend an existing key's list in place or
materialize the key at the end (CPython dict insertion order). -/
def apAppend (m : List (String × List Meas)) (k : String) (v : Meas) :
    List (String × List Meas) :=
  match m with
  | [] => [(k, [v])]
  | (k', vs) :: rest =>
      if k' == k then (k', vs ++ [v]) :: rest else (k', vs) :: apAppend rest k v

/-- The main loop of `correlate_throughput_with_ap` (lines 108-144) over the
iperf records, threading the `ap_throughput` accumulator; `none` models the
uncaught `ValueError` of line 141. -/
def correlateGo (wifis : List WifiRec) (acc : List (String × List Meas)) :
    List IperfRec → Option (List (String × List Meas))
  | [] => some acc
  | ip :: rest =>
      match selectPairing wifis ip with
      | none => correlateGo wifis acc rest
      | some (w, _) =>
          match sigParse w.signal_dbm with
          | none => none
          | some s => correlateGo wifis (apAppend acc (apNameOf w) (mkMeas ip s)) rest

/-- `correlate_throughput_with_ap` (lines 96-144). -/
def correlate_throughput_with_ap (iperfs : List IperfRec) (wifis : List WifiRec) :
    Option (List (String × List Meas)) :=
  correlateGo wifis [] iperfs

/-- `statistics.mean` over rationals. -/
def meanQ (l : List ℚ) : ℚ := l.sum / (l.length : ℚ)

/-- Python `min` over a non-empty rational list. -/
def listMinQ : List ℚ → ℚ
  | [] => 0
  | a :: as => as.foldl min a

/-- Python `max` over a non-empty rational list. -/
def listMaxQ : List ℚ → ℚ
  | [] => 0
  | a :: as => as.foldl max a

/-- The square of `statistics.stdev` (sample variance). The source stores the
standard deviation; the model keeps its square so everything stays in `ℚ` —
the square root is strictly monotone and no claim depends on it. -/
def sampleVarQ (l : List ℚ) : ℚ :=
  ((l.map (fun x => (x - meanQ l) ^ 2)).sum) / ((l.length : ℚ) - 1)

/-- One entry of the list returned by `analyze_backhaul_quality` (lines
177-188); `var_throughput` is the squared `std_throughput_mbps`. -/
structure APReport where
  ap_name : String
  avg_throughput_mbps : ℚ
  var_throughput : ℚ
  min_throughput_mbps : ℚ
  max_throughput_mbps : ℚ
  avg_signal_dbm : Option ℚ
  sample_count : Nat
  hosts : List String
  quality : String
  measurements : List Meas
deriving DecidableEq

/-- The quality thresholds of lines 168-175. -/
def qualityOf (avg : ℚ) : String :=
  if avg < 20 then "Poor"
  else if avg < 50 then "Fair"
  else if avg < 100 then "Good"
  else "Excellent"

/-- The report of one AP (loop body, lines 154-188). `setList` materializes
`list(set(...))` for the contributing hosts; nothing else depends on it. -/
def mkAPReport (setList : List String → List String) (e : String × List Meas) : APReport :=
  { ap_name := e.1,
    avg_throughput_mbps := meanQ (e.2.map (fun m => m.throughput_mbps)),
    var_throughput :=
      if 1 < (e.2.map (fun m => m.throughput_mbps)).length then
        sampleVarQ (e.2.map (fun m => m.throughput_mbps))
      else 0,
    min_throughput_mbps := listMinQ (e.2.map (fun m => m.throughput_mbps)),
    max_throughput_mbps := listMaxQ (e.2.map (fun m => m.throughput_mbps)),
    avg_signal_dbm :=
      if (e.2.filterMap (fun m => m.signal_dbm)).isEmpty then none
      else some (meanQ ((e.2.filterMap (fun m => m.signal_dbm)).map (fun s => (s : ℚ)))),
    sample_count := e.2.length,
    hosts := setList (e.2.map (fun m => m.host)),
    quality := qualityOf (meanQ (e.2.map (fun m => m.throughput_mbps))),
    measurements := e.2 }

/-- `analyze_backhaul_quality` (lines 147-193): build one report per AP with
a non-empty measurement list, then stable-sort ascending by mean throughput. -/
def analyze_backhaul_quality (setList : List String → List String)
    (apt : List (String × List Meas)) : List APReport :=
  sortByKey (fun r => r.avg_throughput_mbps)
    ((apt.filter (fun e => !e.2.isEmpty)).map (mkAPReport setList))

/-- The only guarantee CPython gives for `list(set(xs))` over strings under
seeded hashing: some ordering of the distinct elements. -/
def IsSetMaterialization (f : List String → List String) : Prop :=
  ∀ l : List String, List.Perm (f l) l.dedup

/- Concrete fixtures for the correlator and aggregator claims. -/

/-- A successful 50 Mbps iperf record at epoch 0. -/
def ipRecB : IperfRec :=
  { host := "pi-a", ts := "2024-01-01T00:00:00", tsEpoch := some 0, ok := true,
    mode := some "download", throughput_mbps := 50 }

/-- A same-host wifi row exactly 300 s away. -/
def wifiRecB : WifiRec :=
  { host := "pi-a", ts := "2024-01-01T00:05:00", tsEpoch := some 300,
    signal_dbm := Cell.val (-60), ap_name := some "ap-attic", bssid := none }

/-- A same-host wifi row at epoch 80 (gap 20 from epoch 100). -/
def wifiRec80 : WifiRec :=
  { host := "pi-a", ts := "2024-01-01T00:01:20", tsEpoch := some 80,
    signal_dbm := Cell.val (-61), ap_name := some "ap-hall", bssid := none }

/-- A same-host wifi row at epoch 95 (gap 5 from epoch 100). -/
def wifiRec95 : WifiRec :=
  { host := "pi-a", ts := "2024-01-01T00:01:35", tsEpoch := some 95,
    signal_dbm := Cell.val (-62), ap_name := some "ap-attic", bssid := none }

/-- A successful iperf record at epoch 100. -/
def ipRec100 : IperfRec :=
  { host := "pi-a", ts := "2024-01-01T00:01:40", tsEpoch := some 100, ok := true,
    mode := some "download", throughput_mbps := 50 }

/-- A decoded iperf line whose `sum_received.bits_per_second` is negative. -/
def negIperfRaw : IperfRaw :=
  { ok := true, hasIperf := true, mode := some "download",
    sum_received_bps := -1000000, sum_sent_bps := 0,
    ts := "2024-01-01T00:00:00", tsEpoch := some 0 }

/-- A same-host wifi row at the same instant, with no signal value. -/
def wifiRec0 : WifiRec :=
  { host := "pi-a", ts := "2024-01-01T00:00:00", tsEpoch := some 0,
    signal_dbm := Cell.missing, ap_name := some "ap-attic", bssid := none }

/-- A measurement observed from host `pi-a`. -/
def measA : Meas :=
  { throughput_mbps := 50, mode := "download", host := "pi-a",
    ts := "2024-01-01T00:00:00", signal_dbm := some (-60) }

/-- A measurement observed from host `pi-b`. -/
def measB : Meas :=
  { throughput_mbps := 60, mode := "download", host := "pi-b",
    ts := "2024-01-01T00:10:00", signal_dbm := none }

/-- An `ap_throughput` table with one AP fed by two hosts. -/
def aptEx : List (String × List Meas) := [("ap-attic", [measA, measB])]

/-- A measurement that originates from a successful, nonzero-throughput
iperf record of the given list (claim C10 wording). -/
def GoodMeas (iperfs : List IperfRec) (m : Meas) : Prop :=
  m.throughput_mbps ≠ 0 ∧
    ∃ ip ∈ iperfs, ip.ok = true ∧ ip.throughput_mbps = m.throughput_mbps

/-- The record `read_iperf_logs` produces from `negIperfRaw` (its throughput
is `-1000000 / 1000000 = -1` Mbps). -/
def ipRecNeg : IperfRec :=
  { host := "pi-a", ts := "2024-01-01T00:00:00", tsEpoch := some 0, ok := true,
    mode := some "download", throughput_mbps := -1 }

/-- Equality of AP reports in every field except the `hosts` list, which is
only required to hold the same hosts in some order. -/
def APReportEquivUpToHosts (r₁ r₂ : APReport) : Prop :=
  r₁.ap_name = r₂.ap_name ∧ r₁.avg_throughput_mbps = r₂.avg_throughput_mbps ∧
    r₁.var_throughput = r₂.var_throughput ∧
    r₁.min_throughput_mbps = r₂.min_throughput_mbps ∧
    r₁.max_throughput_mbps = r₂.max_throughput_mbps ∧
    r₁.avg_signal_dbm = r₂.avg_signal_dbm ∧
    r₁.sample_count = r₂.sample_count ∧ r₁.quality = r₂.quality ∧
    r₁.measurements = r₂.measurements ∧ List.Perm r₁.hosts r₂.hosts

/- ------------------------------------------------------------------ -/
/- coverage_gaps.py : dead-zone events;  analyze.py : visibility       -/
/- ------------------------------------------------------------------ -/

/-- One `wifi_probe.csv` row as consumed by `analyze_coverage_gaps`. -/
structure CovRow where
  host : String
  ts : String
  signal_dbm : Cell Int
  band : Option String
  ap_name : Option String
  bssid : Option String
deriving DecidableEq

/-- `int(w.get("signal_dbm") or -100)` (coverage_gaps line 189): an absent or
empty cell defaults to `-100`; a present non-numeric cell raises (`none`). -/
def signalOrDefault : Cell Int → Option Int
  | Cell.missing => some (-100)
  | Cell.bad => none
  | Cell.val s => some s

/-- The value `signalOrDefault` yields on any cell that does not raise. -/
def signalDefaulted : Cell Int → Int
  | Cell.missing => -100
  | Cell.bad => -100
  | Cell.val s => s

/-- The dead-zone event loop of `analyze_coverage_gaps` (lines 186-203)
over one host's wifi rows; the model keeps the whole row rather than the
projected dict, and `none` models the uncaught `ValueError` of `int()` on a
non-numeric cell. Reached only for hosts that pass the signal gate — see
`hostDeadZoneEvents`. -/
def deadZoneEvents : List CovRow → Option (List CovRow)
  | [] => some []
  | w :: ws => do
      let s ← signalOrDefault w.signal_dbm
      let rest ← deadZoneEvents ws
      some (if s < DEAD_ZONE_THRESHOLD then w :: rest else rest)

/-- The signal extraction of line 164,
`[int(w["signal_dbm"]) for w in host_wifi if w.get("signal_dbm")]`: absent or
empty cells are filtered out by the truthiness test, and a present
non-numeric cell raises `ValueError` (`none`). -/
def hostSignals : List CovRow → Option (List Int)
  | [] => some []
  | w :: ws =>
      match w.signal_dbm with
      | Cell.missing => hostSignals ws
      | Cell.bad => none
      | Cell.val s => (hostSignals ws).map (fun rest => s :: rest)

/-- The dead-zone events one host contributes in `analyze_coverage_gaps`
(lines 156-203): a host none of whose rows carries a parseable signal is
skipped before the loop by `if not signals: continue` (lines 166-167) and
contributes nothing; otherwise the loop of lines 186-203 runs over all of
the host's rows. -/
def hostDeadZoneEvents (host_wifi : List CovRow) : Option (List CovRow) :=
  match hostSignals host_wifi with
  | none => none
  | some signals =>
      if signals.isEmpty then some [] else deadZoneEvents host_wifi

/-- A wifi probe row carrying no signal measurement at all. -/
def noSignalRow : CovRow :=
  { host := "pi-porch", ts := "2024-01-01T00:00:00", signal_dbm := Cell.missing,
    band := some "5GHz", ap_name := some "ap-attic", bssid := none }

/-- A row with a parseable, in-range signal; its presence lets the host pass
the `if not signals` gate. -/
def okSignalRow : CovRow :=
  { host := "pi-porch", ts := "2024-01-01T00:05:00", signal_dbm := Cell.val (-60),
    band := some "5GHz", ap_name := some "ap-attic", bssid := none }

/-- Sixteen samples — nine at −55 dBm and seven at −85 dBm — whose clamped
score is exactly 1.25, the half-way rounding tie. -/
def tieSignals : List Int := List.replicate 9 (-55) ++ List.replicate 7 (-85)

/-- Rows at and around the dead-zone threshold, plus a missing-signal row. -/
def deadRowsEx : List CovRow :=
  [{ host := "pi-porch", ts := "t1", signal_dbm := Cell.val (-85), band := none,
     ap_name := some "ap-attic", bssid := none },
   { host := "pi-porch", ts := "t2", signal_dbm := Cell.val (-80), band := none,
     ap_name := some "ap-attic", bssid := none },
   { host := "pi-porch", ts := "t3", signal_dbm := Cell.val (-79), band := none,
     ap_name := some "ap-attic", bssid := none },
   noSignalRow]

/-- One entry of `cmd_visibility`'s `ap_visibility` dict (lines 434-449):
the strongest signal seen for the AP (`none` when the cell was empty), the
`is_connected == "1"` flag, ssid and frequency. -/
structure VisInfo where
  signal : Option Int
  connected : Bool
  ssid : String
  freq : Option Int
deriving DecidableEq

/-- `int(info.get("signal") or -100)` (lines 454, 485, 487). -/
def visSignalKey (i : VisInfo) : Int := i.signal.getD (-100)

/-- The `sorted(..., key=signal, reverse=True)` of lines 452-456: a stable
descending sort, modelled as the stable ascending sort on the negated key. -/
def sortedAps (vis : List (String × VisInfo)) : List (String × VisInfo) :=
  sortByKey (fun e => -(visSignalKey e.2)) vis

/-- Dict lookup `ap_visibility[name]` on the association list. -/
def dictGet (vis : List (String × VisInfo)) (k : String) : Option VisInfo :=
  (vis.find? (fun e => e.1 == k)).map (fun e => e.2)

/-- `connected_ap` (line 483): the first connected entry in descending
signal order. -/
def connectedEntry (vis : List (String × VisInfo)) : Option (String × VisInfo) :=
  (sortedAps vis).find? (fun e => e.2.connected)

/-- `better_aps` (lines 483-487): the visible non-connected APs whose signal
exceeds the connected AP's signal by strictly more than 5 dBm. -/
def betterAps (vis : List (String × VisInfo)) : List (String × VisInfo) :=
  match connectedEntry vis with
  | none => []
  | some ce =>
      let cs : Int :=
        match dictGet vis ce.1 with
        | some info => visSignalKey info
        | none => -100
      (sortedAps vis).filter
        (fun e => !e.2.connected && decide (cs + 5 < visSignalKey e.2))

/-- The sticky-client condition of lines 489-491: `better_aps` nonempty. -/
def stickyFlag (vis : List (String × VisInfo)) : Bool :=
  !(betterAps vis).isEmpty

/-- A connected AP at −65 dBm. -/
def visInfoConn : VisInfo :=
  { signal := some (-65), connected := true, ssid := "home", freq := some 5200 }

/-- A visible non-connected AP at −58 dBm (delta 7 over −65). -/
def visInfoStrong : VisInfo :=
  { signal := some (-58), connected := false, ssid := "home", freq := some 5200 }

/-- A visible non-connected AP at −60 dBm (delta exactly 5 over −65). -/
def visInfoEq5 : VisInfo :=
  { signal := some (-60), connected := false, ssid := "home", freq := some 2412 }

/-- Visibility with a 7 dBm stronger non-connected AP. -/
def visEx : List (String × VisInfo) :=
  [("ap-attic", visInfoConn), ("ap-hall", visInfoStrong)]

/-- Visibility where the best alternative is exactly 5 dBm stronger. -/
def visEx5 : List (String × VisInfo) :=
  [("ap-attic", visInfoConn), ("ap-hall", visInfoEq5)]

/- ------------------------------------------------------------------ -/
/- Theorems                                                            -/
/- ------------------------------------------------------------------ -/

section StableSortLemmas

variable {α : Type} {K : Type} [LinearOrder K]

theorem sortByKey_sorted (k : α → K) (l : List α) :
    List.Sorted (fun a b => k a ≤ k b) (sortByKey k l) :=
  List.sorted_insertionSort _ l

theorem sortByKey_perm (k : α → K) (l : List α) : List.Perm (sortByKey k l) l :=
  List.perm_insertionSort _ l

theorem filter_orderedInsert_keyconst (k : α → K) (p : α → Bool) (t : K)
    (hp : ∀ x, p x = true → k x = t) (a : α) :
    ∀ m : List α,
      (List.orderedInsert (fun x y => k x ≤ k y) a m).filter p =
        if p a then a :: m.filter p else m.filter p
  | [] => by
    by_cases ha : p a <;> simp [List.orderedInsert, List.filter, ha]
  | b :: m => by
    by_cases hle : k a ≤ k b
    · by_cases ha : p a <;>
        simp [List.orderedInsert, hle, List.filter_cons, ha]
    · have hba : k b < k a := lt_of_not_le hle
      have ih := filter_orderedInsert_keyconst k p t hp a m
      by_cases ha : p a
      · have hb : p b = false := by
          cases hpb : p b with
          | false => rfl
          | true =>
            have htt : t < t := by
              have h1 := hp b hpb
              have h2 := hp a ha
              rw [h1, h2] at hba
              exact hba
            exact absurd htt (lt_irrefl t)
        simp [List.orderedInsert, hle, List.filter_cons, ha, hb, ih]
      · simp [List.orderedInsert, hle, List.filter_cons, ha, ih]

/-- Stability of the modelled Python sort: filtering by any predicate whose
matches all share one key value commutes with the sort, i.e. equal-key
records keep their relative input order. -/
theorem filter_sortByKey (k : α → K) (p : α → Bool) (t : K)
    (hp : ∀ x, p x = true → k x = t) (l : List α) :
    (sortByKey k l).filter p = l.filter p := by
  induction l with
  | nil => rfl
  | cons a l ih =>
    show (List.orderedInsert (fun x y => k x ≤ k y) a
        (List.insertionSort (fun x y => k x ≤ k y) l)).filter p = _
    rw [filter_orderedInsert_keyconst k p t hp a
        (List.insertionSort (fun x y => k x ≤ k y) l)]
    have ih' : (List.insertionSort (fun x y => k x ≤ k y) l).filter p = l.filter p := ih
    by_cases ha : p a <;> simp [ha, List.filter_cons, ih']

theorem forall₂_orderedInsert (k : α → K) (R : α → α → Prop)
    (hkey : ∀ a b, R a b → k a = k b) {a b : α} (hab : R a b) :
    ∀ {l₁ l₂ : List α}, List.Forall₂ R l₁ l₂ →
      List.Forall₂ R (List.orderedInsert (fun x y => k x ≤ k y) a l₁)
        (List.orderedInsert (fun x y => k x ≤ k y) b l₂) := by
  intro l₁ l₂ h
  induction h with
  | nil => exact List.Forall₂.cons hab List.Forall₂.nil
  | @cons x y l₁ l₂ hxy hrest ih =>
    have hcond : (k a ≤ k x) ↔ (k b ≤ k y) := by
      rw [hkey a b hab, hkey x y hxy]
    by_cases hc : k a ≤ k x
    · have hc' : k b ≤ k y := hcond.mp hc
      simp only [List.orderedInsert, if_pos hc, if_pos hc']
      exact List.Forall₂.cons hab (List.Forall₂.cons hxy hrest)
    · have hc' : ¬ k b ≤ k y := fun h' => hc (hcond.mpr h')
      simp only [List.orderedInsert, if_neg hc, if_neg hc']
      exact List.Forall₂.cons hxy ih

/-- A stable key sort applied to two pointwise-related lists with equal keys
rearranges both in the same way. -/
theorem forall₂_sortByKey (k : α → K) (R : α → α → Prop)
    (hkey : ∀ a b, R a b → k a = k b) :
    ∀ {l₁ l₂ : List α}, List.Forall₂ R l₁ l₂ →
      List.Forall₂ R (sortByKey k l₁) (sortByKey k l₂) := by
  intro l₁ l₂ h
  induction h with
  | nil => exact List.Forall₂.nil
  | cons hxy _ ih => exact forall₂_orderedInsert k R hkey hxy ih

end StableSortLemmas

/-- The code's clamped (pre-rounding) score coincides with the claim's exact
formula on every non-empty input. -/
theorem clampedScore_eq_claimScore (signals : List Int) (h : signals ≠ []) :
    clampedScore signals = claimScore signals := by
  have hlen : 0 < (signals.length : ℚ) := by
    have h0 : 0 < signals.length := List.length_pos.mpr h
    exact_mod_cast h0
  have hcnt : ∀ p : Int → Bool, (0:ℚ) ≤ (signals.countP p : ℚ) := by
    intro p
    positivity
  unfold clampedScore claimScore penalizedScore rawScore deadZonePct
    claimWeightedSum cntExcellent cntGood cntFair cntWeak cntDead
    EXCELLENT_SIGNAL GOOD_SIGNAL FAIR_SIGNAL WEAK_SIGNAL
  congr 2
  split_ifs with hpos
  · ring
  · have hnn : (0:ℚ) ≤ (signals.countP (fun s => decide (s < -75)) : ℚ) /
        (signals.length : ℚ) * 100 := by positivity
    have h0 : (signals.countP (fun s => decide (s < -75)) : ℚ) /
        (signals.length : ℚ) * 100 = 0 := le_antisymm (not_lt.mp hpos) hnn
    have h1 : (100:ℚ) * ((signals.countP (fun s => decide (s < -75)) : ℚ) /
        (signals.length : ℚ)) = 0 := by linarith
    rw [h1, sub_zero]
    ring

/-- The clamped score of the boundary example evaluates to exactly 34. -/
theorem clampedScore_boundary : clampedScore [-45, -55, -65, -73, -85] = 34 := by
  have h1 : cntExcellent [-45, -55, -65, -73, -85] = 1 := by decide
  have h2 : cntGood [-45, -55, -65, -73, -85] = 1 := by decide
  have h3 : cntFair [-45, -55, -65, -73, -85] = 1 := by decide
  have h4 : cntWeak [-45, -55, -65, -73, -85] = 1 := by decide
  have h5 : cntDead [-45, -55, -65, -73, -85] = 1 := by decide
  unfold clampedScore penalizedScore rawScore deadZonePct
  rw [h1, h2, h3, h4, h5]
  norm_num

/-- Claim C1, counterexample: the returned score is `round(score, 1)`, so it
differs from the claimed exact band-weighted value whenever the latter is not
a multiple of one tenth. For `[-45, -45, -55]` the code returns `93.3` while
the claimed formula gives `280/3 = 93.333…`. -/
theorem coverage_score_rounding_counterexample :
    (calculate_coverage_score [-45, -45, -55]).score ≠ claimScore [-45, -45, -55] := by
  have hclamp : clampedScore [-45, -45, -55] = 280/3 := by
    have h1 : cntExcellent [-45, -45, -55] = 2 := by decide
    have h2 : cntGood [-45, -45, -55] = 1 := by decide
    have h3 : cntFair [-45, -45, -55] = 0 := by decide
    have h4 : cntWeak [-45, -45, -55] = 0 := by decide
    have h5 : cntDead [-45, -45, -55] = 0 := by decide
    unfold clampedScore penalizedScore rawScore deadZonePct
    rw [h1, h2, h3, h4, h5]
    norm_num
  have hclaim : claimScore [-45, -45, -55] = 280/3 := by
    rw [← clampedScore_eq_claimScore _ (by decide), hclamp]
  have hscore : (calculate_coverage_score [-45, -45, -55]).score = 933/10 := by
    show roundTenth (clampedScore [-45, -45, -55]) = 933/10
    rw [hclamp]
    norm_num [roundTenth, roundHalfEven]
  rw [hscore, hclaim]
  norm_num

/-- Claim C1 (amended): for the boundary list `[-45, -55, -65, -73, -85]` the
scorer returns breakdown `{excellent 1, good 1, fair 1, weak 1, dead 1}`,
score exactly `34`, rating `"Poor"`; and for every non-empty signal list the
returned score is the band-weighted sum minus the dead-band percentage,
clamped to `[0,100]` and then rounded to one decimal place, with the rating
determined from the unrounded clamped value by the stated thresholds and the
breakdown equal to the five band counts. -/
theorem coverage_score_spec_amended :
    ((calculate_coverage_score [-45, -55, -65, -73, -85]).score = 34 ∧
      (calculate_coverage_score [-45, -55, -65, -73, -85]).rating = "Poor" ∧
      (calculate_coverage_score [-45, -55, -65, -73, -85]).excellent = 1 ∧
      (calculate_coverage_score [-45, -55, -65, -73, -85]).good = 1 ∧
      (calculate_coverage_score [-45, -55, -65, -73, -85]).fair = 1 ∧
      (calculate_coverage_score [-45, -55, -65, -73, -85]).weak = 1 ∧
      (calculate_coverage_score [-45, -55, -65, -73, -85]).dead_zone = 1) ∧
    ∀ signals : List Int, signals ≠ [] →
      (calculate_coverage_score signals).score = roundTenth (claimScore signals) ∧
      (calculate_coverage_score signals).rating = claimRating (claimScore signals) ∧
      (calculate_coverage_score signals).excellent
          = signals.countP (fun s => decide (-50 ≤ s)) ∧
      (calculate_coverage_score signals).good
          = signals.countP (fun s => decide (-60 ≤ s ∧ s < -50)) ∧
      (calculate_coverage_score signals).fair
          = signals.countP (fun s => decide (-70 ≤ s ∧ s < -60)) ∧
      (calculate_coverage_score signals).weak
          = signals.countP (fun s => decide (-75 ≤ s ∧ s < -70)) ∧
      (calculate_coverage_score signals).dead_zone
          = signals.countP (fun s => decide (s < -75)) := by
  constructor
  · refine ⟨?_, ?_, by decide, by decide, by decide, by decide, by decide⟩
    · show roundTenth (clampedScore [-45, -55, -65, -73, -85]) = 34
      rw [clampedScore_boundary]
      norm_num [roundTenth, roundHalfEven]
    · show ratingOf (clampedScore [-45, -55, -65, -73, -85]) = "Poor"
      rw [clampedScore_boundary]
      norm_num [ratingOf]
  · intro signals hne
    have hempty : signals.isEmpty = false := by
      cases signals with
      | nil => exact absurd rfl hne
      | cons a l => rfl
    have hkey := clampedScore_eq_claimScore signals hne
    refine ⟨?_, ?_, ?_, ?_, ?_, ?_, ?_⟩ <;>
      simp only [calculate_coverage_score, hempty, Bool.false_eq_true, if_false, hkey,
        cntExcellent, cntGood, cntFair, cntWeak, cntDead,
        EXCELLENT_SIGNAL, GOOD_SIGNAL, FAIR_SIGNAL, WEAK_SIGNAL, claimRating, ratingOf]

/-- Witness for the amended C1 theorem at the boundary input. -/
theorem coverage_score_spec_amended_witness :
    (calculate_coverage_score [-45, -55, -65, -73, -85]).score
        = roundTenth (claimScore [-45, -55, -65, -73, -85]) ∧
      (calculate_coverage_score [-45, -55, -65, -73, -85]).rating
        = claimRating (claimScore [-45, -55, -65, -73, -85]) ∧
      (calculate_coverage_score [-45, -55, -65, -73, -85]).excellent
        = List.countP (fun s => decide (-50 ≤ s)) [-45, -55, -65, -73, -85] ∧
      (calculate_coverage_score [-45, -55, -65, -73, -85]).good
        = List.countP (fun s => decide (-60 ≤ s ∧ s < -50)) [-45, -55, -65, -73, -85] ∧
      (calculate_coverage_score [-45, -55, -65, -73, -85]).fair
        = List.countP (fun s => decide (-70 ≤ s ∧ s < -60)) [-45, -55, -65, -73, -85] ∧
      (calculate_coverage_score [-45, -55, -65, -73, -85]).weak
        = List.countP (fun s => decide (-75 ≤ s ∧ s < -70)) [-45, -55, -65, -73, -85] ∧
      (calculate_coverage_score [-45, -55, -65, -73, -85]).dead_zone
        = List.countP (fun s => decide (s < -75)) [-45, -55, -65, -73, -85] :=
  coverage_score_spec_amended.2 [-45, -55, -65, -73, -85] (by decide)

/-- Claim C7: for every set of per-host record sequences of one stream, the
merged output is non-decreasing in the timestamp string (lexicographic
`String` order), and stable: records with equal host and equal timestamp
string keep their relative input order. -/
theorem merge_sorted_stable (files : List (String × List LogRec)) :
    List.Sorted (fun a b => a.ts ≤ b.ts) (read_csv_logs files) ∧
    ∀ h t, (read_csv_logs files).filter (fun r => decide (r.host = h ∧ r.ts = t)) =
      ((files.map (fun p => p.2.map (tagHost p.1))).join).filter
        (fun r => decide (r.host = h ∧ r.ts = t)) := by
  constructor
  · exact sortByKey_sorted (fun r : LogRec => r.ts) _
  · intro h t
    exact filter_sortByKey (fun r : LogRec => r.ts)
      (fun r : LogRec => decide (r.host = h ∧ r.ts = t)) t
      (fun x hx => (of_decide_eq_true hx).2) _

/-- Claim C3, counterexample: `find_all_hosts` in `analyze.py` (and
`backhaul_inference.py`) performs no exclusion, so a directory named
`failures` is discovered as a host and a record stored under it flows into
the reader output used by every `analyze.py` command. -/
theorem reserved_dirs_counterexample :
    find_all_hosts_analyze (some [{ name := "failures", isDir := true }]) = ["failures"] ∧
    read_csv_from (fun h => if h = "failures" then [strayRow] else [])
        (find_all_hosts_analyze (some [{ name := "failures", isDir := true }]))
      = [{ strayRow with host := "failures" }] := by
  constructor <;> rfl

/-- Claim C3 (amended): only the coverage analyzer's host discovery excludes
the reserved names — for every directory listing it returns no entry named
`failures`, `snapshots` or `archive`. -/
theorem reserved_dirs_amended (listing : Option (List DirEntry)) :
    (find_all_hosts_coverage listing).filter
      (fun n => n == "failures" || n == "snapshots" || n == "archive") = [] := by
  cases listing with
  | none => rfl
  | some entries =>
    rw [List.filter_eq_nil]
    intro n hn
    simp only [find_all_hosts_coverage, List.mem_map, List.mem_filter] at hn
    obtain ⟨d, ⟨_, hcond⟩, rfl⟩ := hn
    simp only [Bool.and_eq_true, Bool.not_eq_true'] at hcond
    simp [hcond.2]

/-- Claim C4, counterexample: one net_probe row whose `wan_loss_pct` holds a
non-numeric string makes `cmd_summary`'s counters raise an uncaught
`ValueError` (`none`), even though the same computation succeeds without the
bad row — the malformed record is not skipped silently. -/
theorem malformed_numeric_crash_counterexample :
    netFailureCounts [goodNetRow] = some (1, 0, 0) ∧
    netFailureCounts [goodNetRow, badNetRow] = none := by
  constructor
  · simp [netFailureCounts, goodNetRow, lossVal]
  · simp [netFailureCounts, goodNetRow, badNetRow, lossVal]

/-- Claim C4 (amended): a JSONL line that fails to decode is silently
dropped and leaves every other record's contribution unchanged; and the
summary counters complete on every row set whose numeric cells are absent,
empty or parseable — only a present non-numeric numeric field aborts. -/
theorem malformed_skip_amended :
    (∀ (pre post : List (Option LogRec)) (h : String)
        (files₁ files₂ : List (String × List (Option LogRec))),
        read_jsonl_logs (files₁ ++ (h, pre ++ none :: post) :: files₂) =
          read_jsonl_logs (files₁ ++ (h, pre ++ post) :: files₂)) ∧
    ∀ rows : List NetRow,
      (∀ r ∈ rows, r.wan_loss_pct ≠ Cell.bad ∧ r.gw_loss_pct ≠ Cell.bad) →
      netFailureCounts rows = some (netFailureCountsOk rows) := by
  constructor
  · intro pre post h files₁ files₂
    have hfm : (pre ++ none :: post).filterMap id = (pre ++ post).filterMap id := by
      simp [List.filterMap_append]
    unfold read_jsonl_logs
    rw [List.map_append, List.map_append, List.map_cons, List.map_cons, hfm]
  · intro rows hgood
    induction rows with
    | nil => rfl
    | cons r rs ih =>
      obtain ⟨hw, hg⟩ := hgood r (List.mem_cons_self r rs)
      have ih' := ih (fun x hx => hgood x (List.mem_cons_of_mem r hx))
      obtain ⟨w, hwv⟩ : ∃ w, lossVal r.wan_loss_pct = some w := by
        cases hc : r.wan_loss_pct with
        | missing => exact ⟨0, rfl⟩
        | bad => exact absurd hc hw
        | val q => exact ⟨q, rfl⟩
      obtain ⟨g, hgv⟩ : ∃ g, lossVal r.gw_loss_pct = some g := by
        cases hc : r.gw_loss_pct with
        | missing => exact ⟨0, rfl⟩
        | bad => exact absurd hc hg
        | val q => exact ⟨q, rfl⟩
      simp only [netFailureCounts, hwv, hgv, ih', Option.bind_eq_bind,
        Option.some_bind, Option.some.injEq]
      simp only [netFailureCountsOk, List.countP_cons, hwv, hgv,
        Option.some.injEq, decide_eq_true_eq]
      by_cases hw100 : w = 100 <;> by_cases hg100 : g = 100 <;>
        by_cases hdns : r.dns_ok = some "0" <;>
        simp [hw100, hg100, hdns, Prod.ext_iff]

/-- Witness for the amended C4 theorem: the counters complete on a row whose
`gw_loss_pct` cell is absent. -/
theorem malformed_skip_amended_witness :
    netFailureCounts [goodNetRow] = some (netFailureCountsOk [goodNetRow]) :=
  malformed_skip_amended.2 [goodNetRow]
    (by intro r hr; simp only [List.mem_singleton] at hr; subst hr; exact ⟨by simp [goodNetRow], by simp [goodNetRow]⟩)

/- Lemmas about the correlator's running-minimum scan. -/

theorem pickClosest_none_iff :
    ∀ (cs : List (WifiRec × Nat)) (acc : Option (WifiRec × Nat)),
      pickClosest cs acc = none ↔ cs = [] ∧ acc = none
  | [], acc => by simp [pickClosest]
  | c :: cs, none => by
    simp [pickClosest, pickClosest_none_iff cs (some c)]
  | c :: cs, some b => by
    by_cases h : c.2 < b.2 <;>
      simp [pickClosest, h, pickClosest_none_iff cs (some c),
        pickClosest_none_iff cs (some b)]

theorem pickClosest_firstMin_acc :
    ∀ (cs : List (WifiRec × Nat)) (b r : WifiRec × Nat),
      pickClosest cs (some b) = some r →
      (r = b ∧ ∀ c ∈ cs, b.2 ≤ c.2) ∨
      (∃ pre post, cs = pre ++ r :: post ∧ r.2 < b.2 ∧
        (∀ c ∈ pre, r.2 < c.2) ∧ (∀ c ∈ post, r.2 ≤ c.2))
  | [], b, r => by
    intro h
    simp only [pickClosest, Option.some.injEq] at h
    exact Or.inl ⟨h.symm, by simp⟩
  | c :: cs, b, r => by
    intro h
    by_cases hc : c.2 < b.2
    · rw [show pickClosest (c :: cs) (some b) = pickClosest cs (some c) from by
        simp [pickClosest, hc]] at h
      rcases pickClosest_firstMin_acc cs c r h with
        ⟨hrc, hall⟩ | ⟨pre, post, heq, hlt, hpre, hpost⟩
      · refine Or.inr ⟨[], cs, by simp [hrc], ?_, by simp, ?_⟩
        · rw [hrc]
          exact hc
        · intro x hx
          rw [hrc]
          exact hall x hx
      · refine Or.inr ⟨c :: pre, post, by simp [heq], lt_trans hlt hc, ?_, hpost⟩
        intro x hx
        rcases List.mem_cons.mp hx with hxc | hx'
        · rw [hxc]
          exact hlt
        · exact hpre x hx'
    · rw [show pickClosest (c :: cs) (some b) = pickClosest cs (some b) from by
        simp [pickClosest, hc]] at h
      rcases pickClosest_firstMin_acc cs b r h with
        ⟨hrb, hall⟩ | ⟨pre, post, heq, hlt, hpre, hpost⟩
      · refine Or.inl ⟨hrb, ?_⟩
        intro x hx
        rcases List.mem_cons.mp hx with hxc | hx'
        · rw [hxc]
          exact not_lt.mp hc
        · exact hall x hx'
      · refine Or.inr ⟨c :: pre, post, by simp [heq], hlt, ?_, hpost⟩
        intro x hx
        rcases List.mem_cons.mp hx with hxc | hx'
        · rw [hxc]
          exact lt_of_lt_of_le hlt (not_lt.mp hc)
        · exact hpre x hx'

/-- The scan returns the first-encountered minimum: everything before the
returned candidate has a strictly larger gap, everything after a gap at
least as large. -/
theorem pickClosest_firstMin (cs : List (WifiRec × Nat)) (r : WifiRec × Nat)
    (h : pickClosest cs none = some r) :
    ∃ pre post, cs = pre ++ r :: post ∧ (∀ c ∈ pre, r.2 < c.2) ∧
      (∀ c ∈ post, r.2 ≤ c.2) := by
  cases cs with
  | nil => simp [pickClosest] at h
  | cons c cs =>
    rw [show pickClosest (c :: cs) none = pickClosest cs (some c) from rfl] at h
    rcases pickClosest_firstMin_acc cs c r h with
      ⟨hrc, hall⟩ | ⟨pre, post, heq, hlt, hpre, hpost⟩
    · refine ⟨[], cs, by simp [hrc], by simp, ?_⟩
      intro x hx
      rw [hrc]
      exact hall x hx
    · refine ⟨c :: pre, post, by simp [heq], ?_, hpost⟩
      intro x hx
      rcases List.mem_cons.mp hx with hxc | hx'
      · rw [hxc]
        exact hlt
      · exact hpre x hx'

/-- Membership and minimality of the scan result. -/
theorem pickClosest_min (cs : List (WifiRec × Nat)) (r : WifiRec × Nat)
    (h : pickClosest cs none = some r) :
    r ∈ cs ∧ ∀ c ∈ cs, r.2 ≤ c.2 := by
  obtain ⟨pre, post, heq, hpre, hpost⟩ := pickClosest_firstMin cs r h
  constructor
  · rw [heq]
    exact List.mem_append.mpr (Or.inr (List.mem_cons_self _ _))
  · intro c hc
    rw [heq] at hc
    rcases List.mem_append.mp hc with hcp | hcc
    · exact le_of_lt (hpre c hcp)
    · rcases List.mem_cons.mp hcc with hcr | hcp'
      · rw [hcr]
      · exact hpost c hcp'

/-- A reported pairing forces the success/nonzero-throughput guard. -/
theorem selectPairing_some_guard (wifis : List WifiRec) (ip : IperfRec)
    (r : WifiRec × Nat) (h : selectPairing wifis ip = some r) :
    ip.ok = true ∧ ip.throughput_mbps ≠ 0 := by
  unfold selectPairing at h
  by_cases hg : (ip.ok && decide (ip.throughput_mbps ≠ 0)) = true
  · have hg' := hg
    rw [Bool.and_eq_true] at hg'
    exact ⟨hg'.1, of_decide_eq_true hg'.2⟩
  · rw [if_neg hg] at h
    exact absurd h (by simp)

/-- A reported pairing comes from the closest-wifi scan and lies strictly
inside the 300 s window. -/
theorem selectPairing_eq_some (wifis : List WifiRec) (ip : IperfRec)
    (w : WifiRec) (d : Nat) (h : selectPairing wifis ip = some (w, d)) :
    ∃ t, ip.tsEpoch = some t ∧ d < 300 ∧
      closestWifi t (wifis.filter (fun x => x.host == ip.host)) = some (w, d) := by
  obtain ⟨hok, htp⟩ := selectPairing_some_guard wifis ip (w, d) h
  have hguard : (ip.ok && decide (ip.throughput_mbps ≠ 0)) = true := by
    simp [hok, htp]
  cases hts : ip.tsEpoch with
  | none =>
    have hnone : selectPairing wifis ip = none := by
      unfold selectPairing
      rw [hguard, hts]
      simp
    rw [hnone] at h
    exact absurd h (by simp)
  | some t =>
    cases hcw : closestWifi t (wifis.filter (fun x => x.host == ip.host)) with
    | none =>
      have hnone : selectPairing wifis ip = none := by
        unfold selectPairing
        rw [hguard, hts]
        simp [hcw]
      rw [hnone] at h
      exact absurd h (by simp)
    | some r =>
      obtain ⟨w', d'⟩ := r
      have hred : selectPairing wifis ip = if d' < 300 then some (w', d') else none := by
        unfold selectPairing
        rw [hguard, hts]
        simp [hcw]
      rw [hred] at h
      by_cases hd : d' < 300
      · rw [if_pos hd] at h
        have hinj := Option.some.inj h
        have hw : w' = w := congrArg Prod.fst hinj
        have hdd : d' = d := congrArg Prod.snd hinj
        subst hw
        subst hdd
        exact ⟨t, rfl, hd, hcw⟩
      · rw [if_neg hd] at h
        exact absurd h (by simp)

/-- Claim C2, counterexample: the window test is strict (`min_diff < 300`,
line 132). For an iperf record at epoch 0 whose nearest same-host wifi row
sits exactly 300 s away, the claim predicts a reported pairing (gap ≤ 300),
but the correlator reports none and the resulting table is empty. -/
theorem correlator_boundary_300_counterexample :
    closestWifi 0 ([wifiRecB].filter (fun w => w.host == ipRecB.host))
        = some (wifiRecB, 300) ∧
    selectPairing [wifiRecB] ipRecB = none ∧
    correlate_throughput_with_ap [ipRecB] [wifiRecB] = some [] := by
  refine ⟨rfl, rfl, rfl⟩

/-- Claim C2 (amended): for every successful, nonzero-throughput iperf record
with a parseable timestamp, (a) every reported pairing has gap strictly below
300 s and is a minimal-gap candidate among the same-host wifi rows with
parseable timestamps, and (b) a pairing is reported precisely when some
minimal-gap candidate has gap < 300 s. A nearest candidate whose gap is
exactly 300 s is not reported. -/
theorem correlator_threshold_amended (wifis : List WifiRec) (ip : IperfRec) (t : Int)
    (hok : ip.ok = true) (htp : ip.throughput_mbps ≠ 0) (hts : ip.tsEpoch = some t) :
    (∀ w d, selectPairing wifis ip = some (w, d) →
        d < 300 ∧ (w, d) ∈ candGaps t (wifis.filter (fun x => x.host == ip.host)) ∧
        ∀ c ∈ candGaps t (wifis.filter (fun x => x.host == ip.host)), d ≤ c.2) ∧
    ((selectPairing wifis ip).isSome = true ↔
      ∃ c ∈ candGaps t (wifis.filter (fun x => x.host == ip.host)),
        c.2 < 300 ∧
          ∀ c' ∈ candGaps t (wifis.filter (fun x => x.host == ip.host)), c.2 ≤ c'.2) := by
  have hguard : (ip.ok && decide (ip.throughput_mbps ≠ 0)) = true := by
    simp [hok, htp]
  cases hcw : closestWifi t (wifis.filter (fun x => x.host == ip.host)) with
  | none =>
    have hnil : candGaps t (wifis.filter (fun x => x.host == ip.host)) = [] :=
      ((pickClosest_none_iff _ _).mp hcw).1
    have hnone : selectPairing wifis ip = none := by
      unfold selectPairing
      rw [hguard, hts]
      simp [hcw]
    constructor
    · intro w d hsome
      rw [hnone] at hsome
      exact absurd hsome (by simp)
    · rw [hnone]
      simp [hnil]
  | some r =>
    obtain ⟨w₀, d₀⟩ := r
    obtain ⟨hmem, hmin⟩ := pickClosest_min _ _ hcw
    have hred : selectPairing wifis ip = if d₀ < 300 then some (w₀, d₀) else none := by
      unfold selectPairing
      rw [hguard, hts]
      simp [hcw]
    by_cases hd : d₀ < 300
    · constructor
      · intro w d hs
        rw [hred, if_pos hd] at hs
        have hinj := Option.some.inj hs
        have hw : w₀ = w := congrArg Prod.fst hinj
        have hdd : d₀ = d := congrArg Prod.snd hinj
        subst hw
        subst hdd
        exact ⟨hd, hmem, hmin⟩
      · rw [hred, if_pos hd]
        simp only [Option.isSome_some, true_iff]
        exact ⟨(w₀, d₀), hmem, hd, hmin⟩
    · constructor
      · intro w d hs
        rw [hred, if_neg hd] at hs
        exact absurd hs (by simp)
      · rw [hred, if_neg hd]
        simp only [Option.isSome_none, Bool.false_eq_true, false_iff]
        rintro ⟨c, hcmem, hc300, hcmin⟩
        have h1 : d₀ ≤ c.2 := hmin c hcmem
        exact hd (lt_of_le_of_lt h1 hc300)

/-- Witness for the amended C2 theorem: the iperf record at epoch 100 with
same-host candidates at epochs 80 and 95. -/
theorem correlator_threshold_amended_witness :
    (∀ w d, selectPairing [wifiRec80, wifiRec95] ipRec100 = some (w, d) →
        d < 300 ∧
        (w, d) ∈ candGaps 100
          ([wifiRec80, wifiRec95].filter (fun x => x.host == ipRec100.host)) ∧
        ∀ c ∈ candGaps 100
          ([wifiRec80, wifiRec95].filter (fun x => x.host == ipRec100.host)), d ≤ c.2) ∧
    ((selectPairing [wifiRec80, wifiRec95] ipRec100).isSome = true ↔
      ∃ c ∈ candGaps 100
          ([wifiRec80, wifiRec95].filter (fun x => x.host == ipRec100.host)),
        c.2 < 300 ∧
          ∀ c' ∈ candGaps 100
            ([wifiRec80, wifiRec95].filter (fun x => x.host == ipRec100.host)),
            c.2 ≤ c'.2) :=
  correlator_threshold_amended [wifiRec80, wifiRec95] ipRec100 100 rfl
    (by norm_num [ipRec100]) rfl

/-- Claim C6: whenever the correlator pairs an iperf record, the chosen wifi
record is the first-encountered minimal-gap candidate in target-sequence
order: every earlier same-host candidate has a strictly larger gap, every
later one a gap at least as large (ties keep the earlier record). -/
theorem correlator_tiebreak_first_min (wifis : List WifiRec) (ip : IperfRec)
    (t : Int) (w : WifiRec) (d : Nat) (hts : ip.tsEpoch = some t)
    (hsel : selectPairing wifis ip = some (w, d)) :
    ∃ pre post,
      candGaps t (wifis.filter (fun x => x.host == ip.host)) = pre ++ (w, d) :: post ∧
      (∀ c ∈ pre, d < c.2) ∧ (∀ c ∈ post, d ≤ c.2) := by
  obtain ⟨t', hts', _, hcw⟩ := selectPairing_eq_some wifis ip w d hsel
  have ht : t' = t := by
    rw [hts] at hts'
    exact (Option.some.inj hts').symm
  subst ht
  exact pickClosest_firstMin _ _ hcw

/-- Witness for C6: the source record at t=100 with targets at t=80 (gap 20)
and t=95 (gap 5) selects the t=95 record. -/
theorem correlator_tiebreak_first_min_witness :
    ∃ pre post,
      candGaps 100 ([wifiRec80, wifiRec95].filter (fun x => x.host == ipRec100.host)) =
        pre ++ (wifiRec95, 5) :: post ∧
      (∀ c ∈ pre, 5 < c.2) ∧ (∀ c ∈ post, 5 ≤ c.2) :=
  correlator_tiebreak_first_min [wifiRec80, wifiRec95] ipRec100 100 wifiRec95 5
    rfl rfl

/- Invariants of the correlator's accumulator. -/

theorem apAppend_forall (P : Meas → Prop) :
    ∀ (m : List (String × List Meas)) (k : String) (v : Meas),
      (∀ e ∈ m, e.2 ≠ [] ∧ ∀ x ∈ e.2, P x) → P v →
      ∀ e ∈ apAppend m k v, e.2 ≠ [] ∧ ∀ x ∈ e.2, P x
  | [], k, v => by
    intro _ hv e he
    simp only [apAppend, List.mem_singleton] at he
    subst he
    refine ⟨by simp, ?_⟩
    intro x hx
    rw [List.mem_singleton.mp hx]
    exact hv
  | (k', vs) :: rest, k, v => by
    intro hm hv e he
    by_cases hk : (k' == k) = true
    · rw [show apAppend ((k', vs) :: rest) k v = (k', vs ++ [v]) :: rest from by
        simp [apAppend, hk]] at he
      rcases List.mem_cons.mp he with hee | he'
      · subst hee
        refine ⟨by simp, ?_⟩
        intro x hx
        rcases List.mem_append.mp hx with hx' | hx'
        · exact (hm (k', vs) (List.mem_cons_self _ _)).2 x hx'
        · rw [List.mem_singleton.mp hx']
          exact hv
      · exact hm e (List.mem_cons_of_mem _ he')
    · rw [show apAppend ((k', vs) :: rest) k v = (k', vs) :: apAppend rest k v from by
        simp [apAppend, hk]] at he
      rcases List.mem_cons.mp he with hee | he'
      · subst hee
        exact hm (k', vs) (List.mem_cons_self _ _)
      · exact apAppend_forall P rest k v
          (fun x hx => hm x (List.mem_cons_of_mem _ hx)) hv e he'

theorem correlateGo_invariant (wifis : List WifiRec) (iperfs₀ : List IperfRec) :
    ∀ (l : List IperfRec) (acc res : List (String × List Meas)),
      (∀ ip ∈ l, ip ∈ iperfs₀) →
      (∀ e ∈ acc, e.2 ≠ [] ∧ ∀ x ∈ e.2, GoodMeas iperfs₀ x) →
      correlateGo wifis acc l = some res →
      ∀ e ∈ res, e.2 ≠ [] ∧ ∀ x ∈ e.2, GoodMeas iperfs₀ x
  | [], acc, res => by
    intro _ hacc h
    have : acc = res := Option.some.inj h
    subst this
    exact hacc
  | ip :: rest, acc, res => by
    intro hsub hacc h
    cases hsp : selectPairing wifis ip with
    | none =>
      rw [show correlateGo wifis acc (ip :: rest) = correlateGo wifis acc rest from by
        simp [correlateGo, hsp]] at h
      exact correlateGo_invariant wifis iperfs₀ rest acc res
        (fun x hx => hsub x (List.mem_cons_of_mem _ hx)) hacc h
    | some r =>
      obtain ⟨w, d⟩ := r
      cases hsg : sigParse w.signal_dbm with
      | none =>
        rw [show correlateGo wifis acc (ip :: rest) = none from by
          simp [correlateGo, hsp, hsg]] at h
        exact absurd h (by simp)
      | some s =>
        rw [show correlateGo wifis acc (ip :: rest) =
            correlateGo wifis (apAppend acc (apNameOf w) (mkMeas ip s)) rest from by
          simp [correlateGo, hsp, hsg]] at h
        obtain ⟨hok, htp⟩ := selectPairing_some_guard wifis ip (w, d) hsp
        have hgood : GoodMeas iperfs₀ (mkMeas ip s) := by
          refine ⟨htp, ip, hsub ip (List.mem_cons_self _ _), hok, rfl⟩
        exact correlateGo_invariant wifis iperfs₀ rest _ res
          (fun x hx => hsub x (List.mem_cons_of_mem _ hx))
          (apAppend_forall _ acc (apNameOf w) (mkMeas ip s) hacc hgood) h

theorem foldlMinQ_mem : ∀ (as : List ℚ) (a : ℚ), as.foldl min a ∈ a :: as
  | [], a => by simp
  | b :: bs, a => by
    have h := foldlMinQ_mem bs (min a b)
    rcases List.mem_cons.mp h with h1 | h2
    · show bs.foldl min (min a b) ∈ a :: b :: bs
      rw [h1]
      rcases min_choice a b with hab | hab <;> rw [hab]
      · exact List.mem_cons_self _ _
      · exact List.mem_cons_of_mem _ (List.mem_cons_self _ _)
    · exact List.mem_cons_of_mem _ (List.mem_cons_of_mem _ h2)

/-- Python `min` of a non-empty list returns one of its elements. -/
theorem listMinQ_mem (l : List ℚ) (h : l ≠ []) : listMinQ l ∈ l := by
  cases l with
  | nil => exact absurd rfl h
  | cons a as => exact foldlMinQ_mem as a

/-- Claim C10, counterexample: a decoded iperf line with a negative
`bits_per_second` yields a negative (hence nonzero) throughput, passes the
`== 0` guard, and is recorded under its AP — so not every recorded
measurement has strictly positive throughput. -/
theorem negative_throughput_counterexample :
    processIperfLine "pi-a" negIperfRaw = ipRecNeg ∧
    ipRecNeg.throughput_mbps < 0 ∧
    correlate_throughput_with_ap [ipRecNeg] [wifiRec0]
      = some [("ap-attic", [mkMeas ipRecNeg none])] ∧
    (mkMeas ipRecNeg none).throughput_mbps < 0 := by
  refine ⟨?_, by norm_num [ipRecNeg], rfl, by norm_num [mkMeas, ipRecNeg]⟩
  simp only [processIperfLine, negIperfRaw, ipRecNeg]
  norm_num

/-- Claim C10 (amended): every measurement recorded by the correlator comes
from a successful iperf sample with *nonzero* (not necessarily positive)
throughput and equals that sample's throughput; every AP key in the table
has at least one measurement, so an AP observed only in failed or
zero-throughput tests never appears; and every backhaul report's minimum
throughput is nonzero. -/
theorem backhaul_nonzero_throughput (iperfs : List IperfRec) (wifis : List WifiRec)
    (res : List (String × List Meas))
    (h : correlate_throughput_with_ap iperfs wifis = some res) :
    (∀ e ∈ res, e.2 ≠ [] ∧ ∀ m ∈ e.2, GoodMeas iperfs m) ∧
    ∀ (f : List String → List String), ∀ r ∈ analyze_backhaul_quality f res,
      r.min_throughput_mbps ≠ 0 := by
  have hinv := correlateGo_invariant wifis iperfs iperfs [] res
    (fun ip hip => hip) (by simp) h
  refine ⟨hinv, ?_⟩
  intro f r hr
  unfold analyze_backhaul_quality at hr
  have hr' := (sortByKey_perm (fun r : APReport => r.avg_throughput_mbps) _).mem_iff.mp hr
  obtain ⟨e, he, hre⟩ := List.mem_map.mp hr'
  have hef : e ∈ res := List.mem_of_mem_filter he
  obtain ⟨hne, hall⟩ := hinv e hef
  have hmap_ne : e.2.map (fun m => m.throughput_mbps) ≠ [] := by
    simp [hne]
  have hmem := listMinQ_mem (e.2.map (fun m => m.throughput_mbps)) hmap_ne
  obtain ⟨m, hm, hmv⟩ := List.mem_map.mp hmem
  have hmin_eq : r.min_throughput_mbps = listMinQ (e.2.map (fun m => m.throughput_mbps)) := by
    rw [← hre]
    rfl
  rw [hmin_eq, ← hmv]
  exact (hall m hm).1

/-- Witness for the amended C10 theorem at a one-record log set. -/
theorem backhaul_nonzero_throughput_witness :
    (∀ e ∈ [("ap-attic", [mkMeas ipRecNeg none])],
        e.2 ≠ [] ∧ ∀ m ∈ e.2, GoodMeas [ipRecNeg] m) ∧
    ∀ (f : List String → List String),
      ∀ r ∈ analyze_backhaul_quality f [("ap-attic", [mkMeas ipRecNeg none])],
        r.min_throughput_mbps ≠ 0 :=
  backhaul_nonzero_throughput [ipRecNeg] [wifiRec0] _ rfl

/-- Claim C5, counterexample: the per-AP host list is `list(set(...))`
(lines 157, 185). Two materializations that are both legal orderings of the
same set — as produced by different interpreter hash seeds — give different
report structures for the same correlation table, so the output is not
bit-identical across runs. -/
theorem aggregator_set_order_counterexample :
    IsSetMaterialization (fun l => l.dedup) ∧
    IsSetMaterialization (fun l => l.dedup.reverse) ∧
    analyze_backhaul_quality (fun l => l.dedup) aptEx ≠
      analyze_backhaul_quality (fun l => l.dedup.reverse) aptEx := by
  refine ⟨fun l => List.Perm.refl _, fun l => List.reverse_perm _, ?_⟩
  intro heq
  have h1 : (analyze_backhaul_quality (fun l => l.dedup) aptEx).map (fun r => r.hosts)
      = [["pi-a", "pi-b"]] := rfl
  have h2 : (analyze_backhaul_quality (fun l => l.dedup.reverse) aptEx).map
      (fun r => r.hosts) = [["pi-b", "pi-a"]] := rfl
  rw [heq, h2] at h1
  exact absurd h1 (by decide)

/-- Claim C5 (amended): the backhaul aggregator is deterministic in every
field except the order inside the per-AP `hosts` lists: for any two legal
set materializations the two runs produce reports that agree field-by-field,
with the `hosts` lists permutations of one another. -/
theorem aggregator_deterministic_up_to_hosts (f g : List String → List String)
    (hf : IsSetMaterialization f) (hg : IsSetMaterialization g)
    (apt : List (String × List Meas)) :
    List.Forall₂ APReportEquivUpToHosts
      (analyze_backhaul_quality f apt) (analyze_backhaul_quality g apt) := by
  unfold analyze_backhaul_quality
  apply forall₂_sortByKey (fun r : APReport => r.avg_throughput_mbps)
    APReportEquivUpToHosts (fun a b hab => hab.2.1)
  generalize apt.filter (fun e => !e.2.isEmpty) = es
  induction es with
  | nil => exact List.Forall₂.nil
  | cons e es ih =>
    refine List.Forall₂.cons ?_ ih
    exact ⟨rfl, rfl, rfl, rfl, rfl, rfl, rfl, rfl, rfl, (hf _).trans (hg _).symm⟩

/-- Witness for the amended C5 theorem at a concrete table and a concrete
materialization. -/
theorem aggregator_deterministic_up_to_hosts_witness :
    List.Forall₂ APReportEquivUpToHosts
      (analyze_backhaul_quality (fun l => l.dedup) aptEx)
      (analyze_backhaul_quality (fun l => l.dedup) aptEx) :=
  aggregator_deterministic_up_to_hosts _ _
    (fun _ => List.Perm.refl _) (fun _ => List.Perm.refl _) aptEx

/-- The model reproduces CPython's rounding tie behaviour: nine −55 dBm and
seven −85 dBm samples give a clamped score of exactly 1.25 and a returned
score of 1.2 (halves round to the even tenth). -/
theorem roundTenth_tie :
    clampedScore tieSignals = 5/4 ∧ (calculate_coverage_score tieSignals).score = 6/5 := by
  have hclamp : clampedScore tieSignals = 5/4 := by
    have h1 : cntExcellent tieSignals = 0 := by decide
    have h2 : cntGood tieSignals = 9 := by decide
    have h3 : cntFair tieSignals = 0 := by decide
    have h4 : cntWeak tieSignals = 0 := by decide
    have h5 : cntDead tieSignals = 7 := by decide
    unfold clampedScore penalizedScore rawScore deadZonePct
    rw [h1, h2, h3, h4, h5, show (tieSignals.length : ℚ) = 16 from by norm_num [tieSignals]]
    norm_num
  refine ⟨hclamp, ?_⟩
  show roundTenth (clampedScore tieSignals) = 6/5
  rw [hclamp]
  norm_num [roundTenth, roundHalfEven]

/-- Claim C8, counterexample: on a host that passes the signal gate of lines
166-167 (it has one parseable −60 dBm row), a probe row with no signal
measurement at all defaults to −100 dBm (`int(w.get("signal_dbm") or -100)`,
line 189) and is counted as a dead-zone event. -/
theorem dead_zone_missing_signal_counterexample :
    noSignalRow.signal_dbm = Cell.missing ∧
    hostSignals [okSignalRow, noSignalRow] = some [-60] ∧
    hostDeadZoneEvents [okSignalRow, noSignalRow] = some [noSignalRow] :=
  ⟨rfl, rfl, rfl⟩

/-- On inputs with no malformed signal cell, the dead-zone loop counts
exactly the rows whose defaulted signal is below the threshold. -/
theorem deadZoneEvents_eq_filter (rows : List CovRow)
    (hgood : ∀ r ∈ rows, r.signal_dbm ≠ Cell.bad) :
    deadZoneEvents rows =
      some (rows.filter
        (fun w => decide (signalDefaulted w.signal_dbm < DEAD_ZONE_THRESHOLD))) := by
  induction rows with
  | nil => rfl
  | cons r rs ih =>
    have h1 : r.signal_dbm ≠ Cell.bad := hgood r (List.mem_cons_self _ _)
    have ih' := ih (fun x hx => hgood x (List.mem_cons_of_mem _ hx))
    have hs : signalOrDefault r.signal_dbm = some (signalDefaulted r.signal_dbm) := by
      cases hc : r.signal_dbm with
      | missing => rfl
      | bad => exact absurd hc h1
      | val s => rfl
    by_cases hlt : signalDefaulted r.signal_dbm < DEAD_ZONE_THRESHOLD <;>
      simp [deadZoneEvents, hs, ih', List.filter_cons, hlt]

/-- With no malformed cell, line 164 extracts the `val` cells in order. -/
theorem hostSignals_of_good :
    ∀ rows : List CovRow, (∀ r ∈ rows, r.signal_dbm ≠ Cell.bad) →
      hostSignals rows = some (rows.filterMap
        (fun w => match w.signal_dbm with
          | Cell.val s => some s
          | _ => none))
  | [], _ => rfl
  | w :: ws, hgood => by
    have ih := hostSignals_of_good ws (fun x hx => hgood x (List.mem_cons_of_mem _ hx))
    have h1 : w.signal_dbm ≠ Cell.bad := hgood w (List.mem_cons_self _ _)
    cases hc : w.signal_dbm with
    | missing => simp [hostSignals, hc, ih, List.filterMap_cons]
    | bad => exact absurd hc h1
    | val s => simp [hostSignals, hc, ih, List.filterMap_cons]

/-- Claim C8 (amended): for a host whose rows carry no malformed signal
cell, if no row has a signal at all the host is skipped by the
`if not signals: continue` gate and contributes no dead-zone events;
otherwise a row is counted as a dead-zone event exactly when its signal
value — with a missing or empty cell defaulting to −100 dBm — is strictly
below the −80 dBm threshold. In particular rows with signal ≥ −80 dBm are
never counted, while on a gate-passing host a row with no signal IS counted. -/
theorem dead_zone_classification_amended (rows : List CovRow)
    (hgood : ∀ r ∈ rows, r.signal_dbm ≠ Cell.bad) :
    hostDeadZoneEvents rows =
      some (if rows.all (fun w => decide (w.signal_dbm = Cell.missing)) then []
        else rows.filter
          (fun w => decide (signalDefaulted w.signal_dbm < DEAD_ZONE_THRESHOLD))) := by
  have hsig := hostSignals_of_good rows hgood
  have hgate : hostDeadZoneEvents rows =
      if (rows.filterMap (fun w => match w.signal_dbm with
          | Cell.val s => some s
          | _ => none)).isEmpty then some [] else deadZoneEvents rows := by
    unfold hostDeadZoneEvents
    rw [hsig]
  by_cases hall : rows.all (fun w => decide (w.signal_dbm = Cell.missing)) = true
  · have hempty : rows.filterMap
        (fun w => match w.signal_dbm with
          | Cell.val s => some s
          | _ => none) = [] := by
      rw [List.filterMap_eq_nil]
      intro w hw
      have hm : w.signal_dbm = Cell.missing :=
        of_decide_eq_true (List.all_eq_true.mp hall w hw)
      rw [hm]
    rw [hgate, hempty]
    simp [hall]
  · have hne : rows.filterMap
        (fun w => match w.signal_dbm with
          | Cell.val s => some s
          | _ => none) ≠ [] := by
      rw [List.all_eq_true] at hall
      push_neg at hall
      obtain ⟨w, hw, hwp⟩ := hall
      have hmiss : w.signal_dbm ≠ Cell.missing := by
        intro hm
        exact hwp (decide_eq_true hm)
      have hbad : w.signal_dbm ≠ Cell.bad := hgood w hw
      cases hc : w.signal_dbm with
      | missing => exact absurd hc hmiss
      | bad => exact absurd hc hbad
      | val s =>
        intro h0
        have hsm : s ∈ rows.filterMap
            (fun w => match w.signal_dbm with
              | Cell.val s => some s
              | _ => none) := by
          refine List.mem_filterMap.mpr ⟨w, hw, ?_⟩
          rw [hc]
        rw [h0] at hsm
        exact absurd hsm (by simp)
    have hfalse : (rows.filterMap
        (fun w => match w.signal_dbm with
          | Cell.val s => some s
          | _ => none)).isEmpty = false := by
      cases hfm : rows.filterMap
          (fun w => match w.signal_dbm with
            | Cell.val s => some s
            | _ => none) with
      | nil => exact absurd hfm hne
      | cons a as => rfl
    rw [hgate, hfalse]
    simp [hall, deadZoneEvents_eq_filter rows hgood]

/-- Witness for the amended C8 theorem: rows at −85, −80, −79 dBm and one
missing-signal row; the host passes the gate, and exactly the −85 row and
the missing-signal row are counted. -/
theorem dead_zone_classification_amended_witness :
    hostDeadZoneEvents deadRowsEx =
      some (if deadRowsEx.all (fun w => decide (w.signal_dbm = Cell.missing)) then []
        else deadRowsEx.filter
          (fun w => decide (signalDefaulted w.signal_dbm < DEAD_ZONE_THRESHOLD))) :=
  dead_zone_classification_amended deadRowsEx (by decide)

/-- Lookup in an association list with pairwise-distinct keys finds the
member entry. -/
theorem dictGet_nodup :
    ∀ (vis : List (String × VisInfo)) (cap : String) (cinfo : VisInfo),
      (vis.map Prod.fst).Nodup → (cap, cinfo) ∈ vis → dictGet vis cap = some cinfo
  | [], cap, cinfo => by
    intro _ h
    exact absurd h (by simp)
  | e :: es, cap, cinfo => by
    intro hnd hmem
    by_cases hk : (e.1 == cap) = true
    · have hkey : e.1 = cap := by
        exact beq_iff_eq.mp hk
      have hdg : dictGet (e :: es) cap = some e.2 := by
        simp [dictGet, List.find?, hk]
      rcases List.mem_cons.mp hmem with hec | hes
      · rw [hdg, ← hec]
      · exfalso
        have hin : cap ∈ es.map Prod.fst := List.mem_map.mpr ⟨(cap, cinfo), hes, rfl⟩
        rw [List.map_cons] at hnd
        have hout : e.1 ∉ es.map Prod.fst := (List.nodup_cons.mp hnd).1
        rw [hkey] at hout
        exact hout hin
    · have hkf : (e.1 == cap) = false := by
        revert hk
        cases e.1 == cap <;> simp
      have hdg : dictGet (e :: es) cap = dictGet es cap := by
        simp [dictGet, List.find?, hkf]
      rcases List.mem_cons.mp hmem with hec | hes
      · exfalso
        apply hk
        rw [← hec]
        exact beq_self_eq_true cap
      · rw [hdg]
        rw [List.map_cons] at hnd
        exact dictGet_nodup es cap cinfo (List.nodup_cons.mp hnd).2 hes

/-- Claim C9: with connected signal −65 a visible non-connected AP at −58
(delta 7) flags the sticky-client condition and one at −60 (delta exactly 5)
does not; in general, for a visibility table with pairwise-distinct AP names
and exactly one connected entry, the condition is flagged if and only if
some visible non-connected AP's signal exceeds the connected AP's signal by
strictly more than 5 dBm. -/
theorem sticky_client_iff :
    stickyFlag visEx = true ∧ stickyFlag visEx5 = false ∧
    ∀ (vis : List (String × VisInfo)) (cap : String) (cinfo : VisInfo),
      (vis.map Prod.fst).Nodup →
      vis.filter (fun e => e.2.connected) = [(cap, cinfo)] →
      (stickyFlag vis = true ↔
        ∃ e ∈ vis, e.2.connected = false ∧
          visSignalKey cinfo + 5 < visSignalKey e.2) := by
  refine ⟨rfl, rfl, ?_⟩
  intro vis cap cinfo hnd hconn
  have hmemf : (cap, cinfo) ∈ vis.filter (fun e => e.2.connected) := by
    rw [hconn]
    exact List.mem_singleton_self _
  have hmemc : (cap, cinfo) ∈ vis := List.mem_of_mem_filter hmemf
  have hcconn : cinfo.connected = true := (List.mem_filter.mp hmemf).2
  have huniq : ∀ e ∈ vis, e.2.connected = true → e = (cap, cinfo) := by
    intro e he hec
    have hef : e ∈ vis.filter (fun e => e.2.connected) :=
      List.mem_filter.mpr ⟨he, hec⟩
    rw [hconn] at hef
    exact List.mem_singleton.mp hef
  have hperm : List.Perm (sortedAps vis) vis :=
    sortByKey_perm (fun e : String × VisInfo => -(visSignalKey e.2)) vis
  have hfind : connectedEntry vis = some (cap, cinfo) := by
    unfold connectedEntry
    cases hf : (sortedAps vis).find? (fun e => e.2.connected) with
    | none =>
      exfalso
      have hmems : (cap, cinfo) ∈ sortedAps vis := hperm.mem_iff.mpr hmemc
      exact (List.find?_eq_none.mp hf (cap, cinfo) hmems) hcconn
    | some ce =>
      have h1 := List.find?_some hf
      have h2 : ce ∈ vis := hperm.mem_iff.mp (List.mem_of_find?_eq_some hf)
      rw [huniq ce h2 h1]
  have hdg : dictGet vis cap = some cinfo := dictGet_nodup vis cap cinfo hnd hmemc
  have hbetter : betterAps vis = (sortedAps vis).filter
      (fun e => !e.2.connected && decide (visSignalKey cinfo + 5 < visSignalKey e.2)) := by
    unfold betterAps
    rw [hfind]
    simp [hdg]
  show (!(betterAps vis).isEmpty) = true ↔ _
  rw [hbetter]
  constructor
  · intro hne
    cases hfl : (sortedAps vis).filter
        (fun e => !e.2.connected && decide (visSignalKey cinfo + 5 < visSignalKey e.2)) with
    | nil =>
      rw [hfl] at hne
      exact absurd hne (by simp)
    | cons x xs =>
      have hx : x ∈ (sortedAps vis).filter
          (fun e => !e.2.connected && decide (visSignalKey cinfo + 5 < visSignalKey e.2)) := by
        rw [hfl]
        exact List.mem_cons_self _ _
      have hxvis : x ∈ vis := hperm.mem_iff.mp (List.mem_of_mem_filter hx)
      have hpx := (List.mem_filter.mp hx).2
      rw [Bool.and_eq_true] at hpx
      refine ⟨x, hxvis, ?_, of_decide_eq_true hpx.2⟩
      have := hpx.1
      revert this
      cases x.2.connected <;> simp
  · rintro ⟨e, he, hec, hsig⟩
    have hmem' : e ∈ (sortedAps vis).filter
        (fun e => !e.2.connected && decide (visSignalKey cinfo + 5 < visSignalKey e.2)) := by
      refine List.mem_filter.mpr ⟨hperm.mem_iff.mpr he, ?_⟩
      rw [Bool.and_eq_true]
      exact ⟨by rw [hec]; rfl, decide_eq_true hsig⟩
    cases hfl : (sortedAps vis).filter
        (fun e => !e.2.connected && decide (visSignalKey cinfo + 5 < visSignalKey e.2)) with
    | nil =>
      rw [hfl] at hmem'
      exact absurd hmem' (by simp)
    | cons x xs => rfl

/-- Witness for the general part of C9 at the −65/−58 visibility table. -/
theorem sticky_client_iff_witness :
    stickyFlag visEx = true ↔
      ∃ e ∈ visEx, e.2.connected = false ∧
        visSignalKey visInfoConn + 5 < visSignalKey e.2 :=
  sticky_client_iff.2.2 visEx "ap-attic" visInfoConn (by decide) (by decide)
